import Mathlib

/-!
Verification development for the `nixos-setup` repository's Python sources
(`scripts_py/utils.py`, `scripts_py/rebuild.py`).

The Python code is shallowly embedded:
* pure string manipulation is translated to Lean functions on `String`;
* filesystem state and subprocess results are passed in explicitly through
  `FS` (for `utils.py`) and `Env` (for `rebuild.py`) records, one field per
  externally observed outcome;
* every subprocess invocation (and the one directory creation) is recorded
  in an event trace, so theorems can speak about which commands a code path
  executes and in which order;
* fallible code returns `Option`/`Except`.
-/

namespace NixosSetup

/-! ## String helpers mirroring the Python primitives used by the scripts -/

/-- The ASCII whitespace characters recognised by Python's `str.strip()`
(restricted to the ASCII range: space, tab, LF, CR, VT, FF). -/
def isPyWs (c : Char) : Bool :=
  c == ' ' || c == '\t' || c == '\n' || c == '\r' ||
  c == Char.ofNat 11 || c == Char.ofNat 12

/-- Python `s.strip()`: remove leading and trailing whitespace. -/
def pyStrip (s : String) : String :=
  String.mk (((s.toList.dropWhile isPyWs).reverse.dropWhile isPyWs).reverse)

/-- Boolean substring test used to embed Python's `pat in s`. -/
def listPrefixEq : List Char → List Char → Bool
  | [], _ => true
  | _ :: _, [] => false
  | a :: as, b :: bs => a == b && listPrefixEq as bs

/-- Helper for `strContains`: does `pat` occur in the char list? -/
def listInfixB (pat : List Char) : List Char → Bool
  | [] => listPrefixEq pat []
  | c :: rest => listPrefixEq pat (c :: rest) || listInfixB pat rest

/-- Python `pat in hay` for strings. -/
def strContains (hay pat : String) : Bool :=
  listInfixB pat.toList hay.toList

/-- Python `s.startswith(pre)` (also embeds the prefix tests on option
names). -/
def strStartsWith (s pre : String) : Bool :=
  listPrefixEq pre.toList s.toList

/-! ## Embedding of `scripts_py/utils.py` -/

/-- `utils.RepoMarkers`: files/dirs that must exist for a directory to be
considered the repo root. -/
structure RepoMarkers where
  files : List String
  dirs : List String
deriving DecidableEq

/-- The default marker set `RepoMarkers()` from `utils.py`. -/
def defaultMarkers : RepoMarkers := ⟨["flake.nix"], ["scripts_py"]⟩

/-- Abstract filesystem used by the repository locator.  A path is the list
of its components from the filesystem root (so `[]` is `/`, and taking the
parent is `List.dropLast`).  `resolve` models `Path.resolve()` (symlink
resolution); `isFile`/`isDir` model `Path.is_file()`/`Path.is_dir()`. -/
structure FS where
  isFile : List String → Bool
  isDir : List String → Bool
  resolve : List String → List String

/-- `utils._has_markers`: all marker files and all marker dirs exist under
`path`. -/
def has_markers (fs : FS) (path : List String) (m : RepoMarkers) : Bool :=
  m.files.all (fun f => fs.isFile (path ++ [f])) &&
  m.dirs.all (fun d => fs.isDir (path ++ [d]))

/-- `utils.FIND_UPWARDS_LIMIT`. -/
def FIND_UPWARDS_LIMIT : Nat := 8

/-- The `for _ in range(FIND_UPWARDS_LIMIT)` loop body of
`utils.find_upwards`: check the current directory, stop at the filesystem
root, otherwise continue with the parent. -/
def findUpGo (fs : FS) (m : RepoMarkers) : Nat → List String → Option (List String)
  | 0, _ => none
  | n + 1, cur =>
    if has_markers fs cur m then some cur
    else if cur = [] then none
    else findUpGo fs m n cur.dropLast

/-- `utils.find_upwards`: resolve `start`, then walk upwards (at most
`FIND_UPWARDS_LIMIT` directories) until a directory matches the markers. -/
def find_upwards (fs : FS) (start : List String) (m : RepoMarkers) : Option (List String) :=
  findUpGo fs m FIND_UPWARDS_LIMIT (fs.resolve start)

/-- `utils.repo_root_from_script_path`: resolve the script path, try
`find_upwards` from `script.parent.parent`, then from `script.parent`, then
from the script path itself; raise `FileNotFoundError` (here `.error ()`)
when all three searches fail. -/
def repo_root_from_script_path (fs : FS) (script_path : List String) (m : RepoMarkers) :
    Except Unit (List String) :=
  let sp := fs.resolve script_path
  match find_upwards fs sp.dropLast.dropLast m with
  | some root => .ok root
  | none =>
    match find_upwards fs sp.dropLast m with
    | some root => .ok root
    | none =>
      match find_upwards fs sp m with
      | some root => .ok root
      | none => .error ()

/-- The character filter of `utils.read_hostname`:
`"".join(ch for ch in raw if ch not in " \t\r\n")` — it deletes every
space, tab, CR and LF character, wherever it occurs. -/
def removeWs (raw : String) : String :=
  String.mk (raw.toList.filter (fun c => !(c == ' ' || c == '\t' || c == '\r' || c == '\n')))

/-- `utils.read_hostname`.  The argument is the result of
`path.read_text(...)`: `none` when reading raised `OSError`, `some raw`
otherwise.  Returns `none` when the file was unreadable or nothing remains
after the whitespace filter. -/
def read_hostname : Option String → Option String
  | none => none
  | some raw =>
    let host := removeWs raw
    if host = "" then none else some host

/-! ## Embedding of `scripts_py/rebuild.py`

Subprocess outcomes are supplied by an `Env` record; the embedding returns
the Python function's return code together with the ordered list of
side-effecting operations it performed (subprocess invocations and the one
`mkdir`).  Diagnostic `print(...)` calls are not modelled.
-/

/-- A side effect performed by `rebuild.py`: a subprocess invocation with
its argument vector, or `Path.parent.mkdir(parents=True, exist_ok=True)`
applied to the given path. -/
inductive Event where
  | proc (argv : List String)
  | mkdirParentOf (path : String)
deriving DecidableEq

/-- The git subcommand (verb) of a recorded command line, looking through a
leading `sudo` and a `-C <dir>` option. -/
def gitVerb : List String → Option String
  | "sudo" :: rest => gitVerb rest
  | "git" :: "-C" :: _ :: verb :: _ => some verb
  | "git" :: verb :: _ => some verb
  | _ => none

/-- The git verb of an event (`none` for non-git events). -/
def eventVerb : Event → Option String
  | .proc argv => gitVerb argv
  | .mkdirParentOf _ => none

/-- `rebuild.RebuildConfig` (paths kept as the strings that end up in
command lines). -/
structure RebuildConfig where
  hostname : String
  flake_dir : String
  repo_root : String
  sync_etc_nixos : Bool
  sync_ref : String
  sync_checkout : Bool
  use_mirror : Bool
  mirror_dir : String
  offline_ok : Bool
deriving DecidableEq

/-- `rebuild.DEFAULT_SYSTEM_FLAKE_DIR`. -/
def defaultFlakeDir : String := "/etc/nixos"

/-- `rebuild.DEFAULT_MIRROR_DIR`. -/
def defaultMirrorDir : String := "/var/lib/nixos-setup/mirror.git"

/-- Externally observed outcomes of one `rebuild.py` invocation: one field
per filesystem probe and per subprocess result consulted by the code. -/
structure Env where
  /-- exit code of `git -C <repo_root> remote get-url origin` -/
  origin_rc : Int
  /-- captured stdout of the `get-url` call -/
  origin_stdout : String
  /-- `mirror_dir.exists()` -/
  mirror_exists : Bool
  /-- exit code of `git clone --mirror <url> <mirror_dir>` -/
  mirror_clone_rc : Int
  /-- exit code of `git -C <mirror_dir> fetch --prune origin` -/
  mirror_fetch_rc : Int
  /-- `(etc_dir / "flake.nix").is_file()` -/
  etc_flake_is_file : Bool
  /-- `(etc_dir / ".git").exists()` -/
  etc_git_exists : Bool
  /-- `etc_dir.exists()` -/
  etc_exists : Bool
  /-- exit code of `sudo git clone <mirror_dir> <etc_dir>` -/
  root_clone_rc : Int
  /-- exit code of `sudo git -C <etc_dir> fetch --prune origin` -/
  root_fetch_rc : Int
  /-- exit code of `sudo git -C <etc_dir> merge --ff-only <ref>` -/
  root_merge_rc : Int
  /-- exit code of `git -C <repo_root> worktree list` -/
  wt_list_rc : Int
  /-- exit code of `git -C <repo_root> worktree list --porcelain` -/
  wt_porcelain_rc : Int
  /-- captured stdout of the porcelain worktree listing -/
  wt_porcelain_stdout : String
  /-- exit code of `git -C <repo_root> fetch --prune origin` -/
  wt_fetch_rc : Int
  /-- exit code of `git -C <worktree_dir> status --porcelain=v1` -/
  status_rc : Int
  /-- captured stdout of the status call -/
  status_stdout : String
  /-- exit code of `sudo git -C <worktree_dir> merge --ff-only <ref>` -/
  wt_merge_rc : Int
deriving DecidableEq

/-- `rebuild.ensure_mirror`: no-op returning 0 when the mirror exists;
otherwise create the parent directories and mirror-clone from the upstream
URL, returning the clone's exit code. -/
def ensure_mirror (mirror_dir upstream_url : String) (env : Env) : Int × List Event :=
  if env.mirror_exists then (0, [])
  else
    (env.mirror_clone_rc,
     [Event.mkdirParentOf mirror_dir,
      Event.proc ["git", "clone", "--mirror", upstream_url, mirror_dir]])

/-- `rebuild.mirror_fetch`: fetch updates into the bare mirror. -/
def mirror_fetch (mirror_dir : String) (env : Env) : Int × List Event :=
  (env.mirror_fetch_rc,
   [Event.proc ["git", "-C", mirror_dir, "fetch", "--prune", "origin"]])

/-- `rebuild.root_ensure_etc_nixos_clone`: success if `etc_dir` already has
both `flake.nix` and `.git`; refuse (exit 1) if `etc_dir` exists in any
other state; otherwise clone the mirror into `etc_dir` as root. -/
def root_ensure_etc_nixos_clone (mirror_dir etc_dir : String) (env : Env) : Int × List Event :=
  if env.etc_flake_is_file && env.etc_git_exists then (0, [])
  else if env.etc_exists then (1, [])
  else
    (env.root_clone_rc, [Event.proc ["sudo", "git", "clone", mirror_dir, etc_dir]])

/-- `rebuild.root_update_from_mirror`: fetch from the local mirror as root,
then fast-forward-only merge to `ref`. -/
def root_update_from_mirror (etc_dir ref : String) (env : Env) : Int × List Event :=
  let fetchCmd := Event.proc ["sudo", "git", "-C", etc_dir, "fetch", "--prune", "origin"]
  if env.root_fetch_rc ≠ 0 then (env.root_fetch_rc, [fetchCmd])
  else
    (env.root_merge_rc,
     [fetchCmd, Event.proc ["sudo", "git", "-C", etc_dir, "merge", "--ff-only", ref]])

/-- `rebuild.sync_worktree`: fast-forward a registered worktree, refusing
to act when the setup is not a worktree, when the tree is dirty, or when
checkout updates were not requested. -/
def sync_worktree (worktree_dir repo_root ref : String) (update_checkout : Bool)
    (env : Env) : Int × List Event :=
  let listCmd := Event.proc ["git", "-C", repo_root, "worktree", "list"]
  let porcCmd := Event.proc ["git", "-C", repo_root, "worktree", "list", "--porcelain"]
  let fetchCmd := Event.proc ["git", "-C", repo_root, "fetch", "--prune", "origin"]
  let statusCmd := Event.proc ["git", "-C", worktree_dir, "status", "--porcelain=v1"]
  let mergeCmd := Event.proc ["sudo", "git", "-C", worktree_dir, "merge", "--ff-only", ref]
  if env.wt_list_rc ≠ 0 then (0, [listCmd])
  else if env.wt_porcelain_rc ≠ 0 then (env.wt_porcelain_rc, [listCmd, porcCmd])
  else if !strContains env.wt_porcelain_stdout ("worktree " ++ worktree_dir) then
    (0, [listCmd, porcCmd])
  else if env.wt_fetch_rc ≠ 0 then (env.wt_fetch_rc, [listCmd, porcCmd, fetchCmd])
  else if env.status_rc ≠ 0 then (env.status_rc, [listCmd, porcCmd, fetchCmd, statusCmd])
  else if pyStrip env.status_stdout ≠ "" then (1, [listCmd, porcCmd, fetchCmd, statusCmd])
  else if !update_checkout then (0, [listCmd, porcCmd, fetchCmd, statusCmd])
  else (env.wt_merge_rc, [listCmd, porcCmd, fetchCmd, statusCmd, mergeCmd])

/-- `rebuild.build_nixos_rebuild_command`. -/
def build_nixos_rebuild_command (cfg : RebuildConfig) (passthrough : List String) :
    List String :=
  ["nixos-rebuild", "switch", "--flake", cfg.flake_dir ++ "/.#" ++ cfg.hostname] ++ passthrough

/-- `rebuild.build_exec_command` (parameterised by `os.geteuid()`). -/
def build_exec_command (cmd : List String) (euid : Nat) : List String :=
  if euid = 0 then cmd else "sudo" :: cmd

/-- The synchronisation section of `rebuild.main` (the code between
`compute_config` and `build_nixos_rebuild_command`).  Returns `some rc`
when `main` returns early with exit code `rc`, `none` when control reaches
the apply-command construction; paired with the event trace. -/
def mainSync (cfg : RebuildConfig) (env : Env) : Option Int × List Event :=
  if cfg.sync_etc_nixos = true ∧ cfg.flake_dir = defaultFlakeDir then
    if cfg.use_mirror = true then
      let getUrlCmd := Event.proc ["git", "-C", cfg.repo_root, "remote", "get-url", "origin"]
      let upstream := pyStrip env.origin_stdout
      if env.origin_rc ≠ 0 ∨ upstream = "" then (some 1, [getUrlCmd])
      else
        let em := ensure_mirror cfg.mirror_dir upstream env
        if em.1 ≠ 0 then (some em.1, getUrlCmd :: em.2)
        else
          let mf := mirror_fetch cfg.mirror_dir env
          let t2 := getUrlCmd :: em.2 ++ mf.2
          if mf.1 ≠ 0 ∧ cfg.offline_ok = false then (some mf.1, t2)
          else
            let rg := root_ensure_etc_nixos_clone cfg.mirror_dir defaultFlakeDir env
            let t3 := t2 ++ rg.2
            if rg.1 ≠ 0 then (some rg.1, t3)
            else
              let ru := root_update_from_mirror defaultFlakeDir cfg.sync_ref env
              let t4 := t3 ++ ru.2
              if ru.1 ≠ 0 ∧ cfg.offline_ok = false then (some ru.1, t4)
              else (none, t4)
    else
      let sw := sync_worktree defaultFlakeDir cfg.repo_root cfg.sync_ref cfg.sync_checkout env
      if sw.1 ≠ 0 then (some sw.1, sw.2) else (none, sw.2)
  else (none, [])

/-! ## Embedding of `rebuild.parse_args`

`parse_args` delegates to `argparse.ArgumentParser.parse_known_args` and
then post-processes the unrecognised tokens.  The relevant fragment of
argparse is embedded for the exact parser built in `rebuild.parse_args`:
ten long options (three of them taking one value), `-h`, one optional
positional `hostname`, unambiguous-prefix abbreviation of long options,
negative-number tokens and a bare `-` treated as positionals, and the
first `--` ending option processing.  Unrecognised options are collected
into the extras list instead of failing (that is `parse_known_args`). -/

/-- The values accumulated by the argument parser
(`argparse.Namespace` for the parser in `rebuild.parse_args`). -/
structure ArgNamespace where
  dev : Bool := false
  flake : Option String := none
  sync : Option Bool := none
  sync_ref : String := "origin/main"
  sync_checkout : Bool := false
  mirror : Bool := false
  mirror_dir : String := "/var/lib/nixos-setup/mirror.git"
  offline_ok : Bool := false
  hostname : Option String := none
deriving DecidableEq

/-- A parse abort: `parser.error(...)`/`--help` end the process via
`SystemExit`. -/
inductive ParseErr where
  | helpShown
  | unknownOption (tok : String)
  | ambiguousOption (tok : String)
  | expectedOneArgument (opt : String)
  | ignoredExplicitArgument (opt : String)
deriving DecidableEq

/-- The long option strings of the parser, with whether each consumes one
value. -/
def longOpts : List (String × Bool) :=
  [("--help", false), ("--dev", false), ("--flake", true), ("--sync", false),
   ("--no-sync", false), ("--sync-ref", true), ("--sync-checkout", false),
   ("--mirror", false), ("--mirror-dir", true), ("--offline-ok", false)]

/-- Resolution of a long option token against `longOpts`. -/
inductive LongRes where
  | opt (name : String) (takesVal : Bool)
  | unknown
  | ambiguous
deriving DecidableEq

/-- argparse long-option lookup: an exact match wins; otherwise an
unambiguous prefix abbreviation is accepted, an ambiguous one is an error,
and no match at all leaves the token unrecognised. -/
def resolveLong (name : String) : LongRes :=
  match longOpts.find? (fun o => o.1 == name) with
  | some o => .opt o.1 o.2
  | none =>
    match longOpts.filter (fun o => strStartsWith o.1 name) with
    | [] => .unknown
    | [o] => .opt o.1 o.2
    | _ => .ambiguous

/-- argparse's negative-number test (`^-\d+$|^-\d*\.\d+$`); such tokens are
positionals because no option string of this parser looks like a number. -/
def isNegNum (tok : String) : Bool :=
  match tok.toList with
  | '-' :: rest =>
    (rest ≠ [] && rest.all (fun c => c.isDigit)) ||
    (match rest.span (fun c => c.isDigit) with
     | (_, '.' :: frac) => frac ≠ [] && frac.all (fun c => c.isDigit)
     | _ => false)
  | _ => false

/-- Split a long option token at its first `=`
(`--name=value` → (`--name`, some `value`)). -/
def splitEq (tok : String) : String × Option String :=
  match tok.toList.span (fun c => c ≠ '=') with
  | (name, '=' :: val) => (String.mk name, some (String.mk val))
  | (name, _) => (String.mk name, none)

/-- A token that argparse's `_parse_optional` classifies as a positional
argument: anything not starting with `-`, the bare `-`, a negative
number, or — the rule applied only after every option lookup has failed —
a dash token containing a space that matches no option string (for a
`--`-token: the part before any `=` is no known option and no prefix of
one; for a single-dash token: it does not start with `-h`). -/
def isPositionalTok (tok : String) : Bool :=
  !strStartsWith tok "-" || tok == "-" || isNegNum tok ||
  (strContains tok " " &&
   (if strStartsWith tok "--" then resolveLong (splitEq tok).1 == LongRes.unknown
    else !(strStartsWith tok "-h")))

/-- Record a store-true / store-false long option into the namespace. -/
def setFlag (ns : ArgNamespace) (opt : String) : ArgNamespace :=
  if opt == "--dev" then { ns with dev := true }
  else if opt == "--sync" then { ns with sync := some true }
  else if opt == "--no-sync" then { ns with sync := some false }
  else if opt == "--sync-checkout" then { ns with sync_checkout := true }
  else if opt == "--mirror" then { ns with mirror := true }
  else if opt == "--offline-ok" then { ns with offline_ok := true }
  else ns

/-- Record a value-taking long option into the namespace. -/
def setValue (ns : ArgNamespace) (opt val : String) : ArgNamespace :=
  if opt == "--flake" then { ns with flake := some val }
  else if opt == "--sync-ref" then { ns with sync_ref := val }
  else if opt == "--mirror-dir" then { ns with mirror_dir := val }
  else ns

/-- Handling of one token by `parse_known_args`.  `next?` is the token
that follows (needed when a value-taking option reads its argument from
the next token).  On success it returns the updated namespace, extras and
separator state, plus whether the following token was consumed as an
option value.  A positional token fills the single optional `hostname`
slot when it is still empty and otherwise joins the extras. -/
def pkaStep (ns : ArgNamespace) (extras : List String) (seenSep : Bool)
    (tok : String) (next? : Option String) :
    Except ParseErr (ArgNamespace × List String × Bool × Bool) :=
  if seenSep then
    if ns.hostname.isNone then .ok ({ ns with hostname := some tok }, extras, true, false)
    else .ok (ns, extras ++ [tok], true, false)
  else if tok == "--" then .ok (ns, extras, true, false)
  else if isPositionalTok tok then
    if ns.hostname.isNone then .ok ({ ns with hostname := some tok }, extras, false, false)
    else .ok (ns, extras ++ [tok], false, false)
  else if strStartsWith tok "--" then
    match resolveLong (splitEq tok).1 with
    | .unknown => .ok (ns, extras ++ [tok], false, false)
    | .ambiguous => .error (.ambiguousOption (splitEq tok).1)
    | .opt o takesVal =>
      if takesVal then
        match (splitEq tok).2 with
        | some v => .ok (setValue ns o v, extras, false, false)
        | none =>
          match next? with
          | none => .error (.expectedOneArgument o)
          | some v =>
            if isPositionalTok v then .ok (setValue ns o v, extras, false, true)
            else .error (.expectedOneArgument o)
      else
        match (splitEq tok).2 with
        | some _ => .error (.ignoredExplicitArgument o)
        | none =>
          if o == "--help" then .error .helpShown
          else .ok (setFlag ns o, extras, false, false)
  else if tok == "-h" then .error .helpShown
  else if strStartsWith tok "-h" then .error (.ignoredExplicitArgument "-h")
  else .ok (ns, extras ++ [tok], false, false)

/-- The token-consumption loop of `parse_known_args`: apply `pkaStep` to
each token in turn, skipping the following token when the step consumed
it as an option value. -/
def pkaGo (ns : ArgNamespace) (extras : List String) (seenSep : Bool) :
    List String → Except ParseErr (ArgNamespace × List String)
  | [] => .ok (ns, extras)
  | tok :: toks =>
    match pkaStep ns extras seenSep tok toks.head? with
    | .error e => .error e
    | .ok (ns2, extras2, seen2, skipNext) =>
      if skipNext then
        match toks with
        | _ :: toks2 => pkaGo ns2 extras2 seen2 toks2
        | [] => .ok (ns2, extras2)
      else pkaGo ns2 extras2 seen2 toks

/-- `parser.parse_known_args(argv)`. -/
def parse_known_args (argv : List String) : Except ParseErr (ArgNamespace × List String) :=
  pkaGo {} [] false argv

/-- The tokens of `argv` after its first `--`
(`argv[argv.index("--") + 1 :]`). -/
def dropThroughSep : List String → List String
  | [] => []
  | tok :: toks => if tok == "--" then toks else dropThroughSep toks

/-- `rebuild.parse_args`: `parse_known_args`, then — when no `--` appears
in `argv` — a hard error on the first leftover token starting with `-`;
when a `--` appears, the passthrough list is replaced by the tokens after
the first `--`. -/
def parse_args (argv : List String) : Except ParseErr (ArgNamespace × List String) :=
  match parse_known_args argv with
  | .error e => .error e
  | .ok (ns, rest) =>
    if "--" ∈ argv then .ok (ns, dropThroughSep argv)
    else
      match rest.find? (fun t => strStartsWith t "-") with
      | some tok => .error (.unknownOption tok)
      | none => .ok (ns, rest)

/-- A token that this parser does not recognise as an option (but which is
option-shaped): starts with `-`, is not classified as a positional (so it
is no bare dash, no negative number, and no unmatched space-containing
token), is not the separator, and resolves to no known option. -/
def isUnrecognizedFlag (tok : String) : Bool :=
  strStartsWith tok "-" && !isPositionalTok tok && tok ≠ "--" &&
  (if strStartsWith tok "--" then resolveLong (splitEq tok).1 == LongRes.unknown
   else !(strStartsWith tok "-h"))

/-! ## Auxiliary definitions for the theorems -/

/-- The ordered list of directories `utils.find_upwards` inspects when its
loop starts at `cur` with `n` iterations left: `cur`, then its parents,
nearest first, stopping at the filesystem root. -/
def upChain : Nat → List String → List (List String)
  | 0, _ => []
  | n + 1, cur => cur :: (if cur = [] then [] else upChain n cur.dropLast)

/-- A baseline environment in which every probe succeeds: the mirror
exists, `/etc/nixos` is a valid clone, every subprocess exits 0 and every
captured output is empty. -/
def env0 : Env :=
  { origin_rc := 0, origin_stdout := "", mirror_exists := true, mirror_clone_rc := 0,
    mirror_fetch_rc := 0, etc_flake_is_file := true, etc_git_exists := true,
    etc_exists := true, root_clone_rc := 0, root_fetch_rc := 0, root_merge_rc := 0,
    wt_list_rc := 0, wt_porcelain_rc := 0, wt_porcelain_stdout := "", wt_fetch_rc := 0,
    status_rc := 0, status_stdout := "", wt_merge_rc := 0 }

/-- A resolved configuration in mirror mode with offline tolerance:
sync enabled, system flake dir, `--mirror --offline-ok`. -/
def cfgMirrorOffline : RebuildConfig :=
  { hostname := "myhost", flake_dir := defaultFlakeDir,
    repo_root := "/home/user/nixos-setup", sync_etc_nixos := true,
    sync_ref := "origin/main", sync_checkout := false, use_mirror := true,
    mirror_dir := defaultMirrorDir, offline_ok := true }

/-- A resolved configuration with mirroring disabled but syncing enabled
(the default when rebuilding from `/etc/nixos` without `--mirror`). -/
def cfgNoMirror : RebuildConfig :=
  { hostname := "myhost", flake_dir := defaultFlakeDir,
    repo_root := "/home/user/nixos-setup", sync_etc_nixos := true,
    sync_ref := "origin/main", sync_checkout := false, use_mirror := false,
    mirror_dir := defaultMirrorDir, offline_ok := false }

/-- Environment in which the mirror fetch fails (exit 1) and everything
else succeeds; the developer checkout has a configured origin URL. -/
def envFetchFail : Env :=
  { env0 with origin_stdout := "git@github.com:Tapiiri/nixos-setup.git\n",
              mirror_fetch_rc := 1 }

/-- Environment in which `/etc/nixos` is a registered worktree of the
developer checkout and is clean. -/
def envWt : Env :=
  { env0 with wt_porcelain_stdout := "worktree /etc/nixos\nHEAD 0123abc\n" }

/-- Environment in which `/etc/nixos` is a registered worktree but its
working tree has uncommitted modifications. -/
def envDirty : Env :=
  { envWt with status_stdout := " M flake.nix\n" }

/-- Filesystem for the locator counterexample: markers are present both at
`/a` and at `/a/b/c`, the script lives at `/a/b/c/s.py`, and no symlinks
are involved. -/
def fsC9 : FS :=
  { isFile := fun p => p == ["a", "b", "c", "flake.nix"] || p == ["a", "flake.nix"],
    isDir := fun p => p == ["a", "b", "c", "scripts_py"] || p == ["a", "scripts_py"],
    resolve := fun p => p }

/-! ## Helper lemmas -/

theorem gitVerb_sudo (rest : List String) : gitVerb ("sudo" :: rest) = gitVerb rest := rfl

theorem gitVerb_gitC (d v : String) (rest : List String) :
    gitVerb ("git" :: "-C" :: d :: v :: rest) = some v := rfl

theorem eventVerb_proc (argv : List String) : eventVerb (.proc argv) = gitVerb argv := rfl

theorem sync_worktree_dirty_eq (wt rr ref : String) (upd : Bool) (env : Env)
    (hl : env.wt_list_rc = 0) (hp : env.wt_porcelain_rc = 0)
    (hr : strContains env.wt_porcelain_stdout ("worktree " ++ wt) = true)
    (hf : env.wt_fetch_rc = 0) (hs : env.status_rc = 0)
    (hd : pyStrip env.status_stdout ≠ "") :
    sync_worktree wt rr ref upd env =
      (1, [Event.proc ["git", "-C", rr, "worktree", "list"],
           Event.proc ["git", "-C", rr, "worktree", "list", "--porcelain"],
           Event.proc ["git", "-C", rr, "fetch", "--prune", "origin"],
           Event.proc ["git", "-C", wt, "status", "--porcelain=v1"]]) := by
  simp [sync_worktree, hl, hp, hr, hf, hs, hd]

theorem sync_worktree_snd_ne_nil (wt rr ref : String) (upd : Bool) (env : Env) :
    (sync_worktree wt rr ref upd env).2 ≠ [] := by
  simp only [sync_worktree]
  repeat' split
  all_goals simp

theorem findUpGo_eq_find (fs : FS) (m : RepoMarkers) :
    ∀ (n : Nat) (cur : List String),
      findUpGo fs m n cur = (upChain n cur).find? (fun p => has_markers fs p m) := by
  intro n
  induction n with
  | zero => intro cur; rfl
  | succ k ih =>
    intro cur
    simp only [findUpGo, upChain, List.find?_cons]
    rcases hm : has_markers fs cur m
    · by_cases hc : cur = []
      · subst hc
        simp [hm]
      · simp [hm, hc, ih]
    · simp [hm]

/-! ## Claims -/

/-- C1: the spec (and the repository's own test
`test_root_ensure_etc_nixos_clone_moves_aside_non_git_dir`) require a
foreign target directory — `flake.nix` present, no `.git` — to be renamed
to a timestamped backup and then recloned with success.  The code instead
refuses: it returns exit code 1 and performs no subprocess at all (no
backup rename, no clone).  This theorem evaluates the embedded code at the
failing input. -/
theorem root_ensure_clone_refuses_foreign_dir :
    root_ensure_etc_nixos_clone defaultMirrorDir defaultFlakeDir
        { env0 with etc_git_exists := false } = (1, []) ∧ (1 : Int) ≠ 0 :=
  ⟨rfl, by decide⟩

/-- C2: in mirror mode with offline-ok, when the mirror fetch fails
(exit 1) the orchestrator merely continues: it proceeds to the root clone
check and the root fast-forward and reaches the apply step, and no command
it executes is a `git push` — no `pushFromDeveloperCheckout` recovery is
attempted (the operation does not exist in `rebuild.py`, although the
repository's own tests import and exercise `mirror_push_from_dev`). -/
theorem mainSync_offline_fetch_failure_no_push :
    mainSync cfgMirrorOffline envFetchFail =
      (none,
       [Event.proc ["git", "-C", "/home/user/nixos-setup", "remote", "get-url", "origin"],
        Event.proc ["git", "-C", "/var/lib/nixos-setup/mirror.git", "fetch", "--prune", "origin"],
        Event.proc ["sudo", "git", "-C", "/etc/nixos", "fetch", "--prune", "origin"],
        Event.proc ["sudo", "git", "-C", "/etc/nixos", "merge", "--ff-only", "origin/main"]]) ∧
    ((mainSync cfgMirrorOffline envFetchFail).2.all
        (fun e => !(eventVerb e == some "push"))) = true :=
  ⟨rfl, rfl⟩

/-- C5: in mirror mode, when reading the developer checkout's origin URL
fails or yields a whitespace-only string, `main` returns the hard failure
exit code 1 having executed only the `get-url` command — no mirror
operation — and without consulting `offline_ok`. -/
theorem mainSync_no_upstream_hard_failure (cfg : RebuildConfig) (env : Env)
    (h1 : cfg.sync_etc_nixos = true) (h2 : cfg.flake_dir = defaultFlakeDir)
    (h3 : cfg.use_mirror = true)
    (h4 : env.origin_rc ≠ 0 ∨ pyStrip env.origin_stdout = "") :
    mainSync cfg env =
      (some 1, [Event.proc ["git", "-C", cfg.repo_root, "remote", "get-url", "origin"]]) := by
  simp [mainSync, h1, h2, h3, h4]

/-- Witness for `mainSync_no_upstream_hard_failure`: a concrete
offline-tolerant configuration where the `get-url` subprocess fails. -/
theorem mainSync_no_upstream_hard_failure_witness :
    mainSync cfgMirrorOffline { env0 with origin_rc := 1 } =
      (some 1, [Event.proc ["git", "-C", "/home/user/nixos-setup", "remote", "get-url", "origin"]]) :=
  mainSync_no_upstream_hard_failure cfgMirrorOffline { env0 with origin_rc := 1 }
    rfl rfl rfl (Or.inl (by decide))

/-- C6: when the worktree status check succeeds and reports a dirty tree
(non-empty porcelain output after stripping), `sync_worktree` returns 1
and the executed commands are exactly the two worktree listings, the
fetch into the developer checkout, and the status read — none of them a
`merge`, `reset` or `checkout` of the worktree, and nothing at all after
the dirtiness check. -/
theorem sync_worktree_dirty_refuses (wt rr ref : String) (upd : Bool) (env : Env)
    (hl : env.wt_list_rc = 0) (hp : env.wt_porcelain_rc = 0)
    (hr : strContains env.wt_porcelain_stdout ("worktree " ++ wt) = true)
    (hf : env.wt_fetch_rc = 0) (hs : env.status_rc = 0)
    (hd : pyStrip env.status_stdout ≠ "") :
    sync_worktree wt rr ref upd env =
      (1, [Event.proc ["git", "-C", rr, "worktree", "list"],
           Event.proc ["git", "-C", rr, "worktree", "list", "--porcelain"],
           Event.proc ["git", "-C", rr, "fetch", "--prune", "origin"],
           Event.proc ["git", "-C", wt, "status", "--porcelain=v1"]]) ∧
    ((sync_worktree wt rr ref upd env).2.all
        (fun e => !(eventVerb e == some "merge") && !(eventVerb e == some "reset") &&
                  !(eventVerb e == some "checkout"))) = true := by
  have heq := sync_worktree_dirty_eq wt rr ref upd env hl hp hr hf hs hd
  refine ⟨heq, ?_⟩
  rw [heq]
  simp [List.all, eventVerb_proc, gitVerb_gitC]

/-- Witness for `sync_worktree_dirty_refuses`: `/etc/nixos` is a
registered, dirty worktree. -/
theorem sync_worktree_dirty_refuses_witness :
    sync_worktree "/etc/nixos" "/home/user/nixos-setup" "origin/main" false envDirty =
      (1, [Event.proc ["git", "-C", "/home/user/nixos-setup", "worktree", "list"],
           Event.proc ["git", "-C", "/home/user/nixos-setup", "worktree", "list", "--porcelain"],
           Event.proc ["git", "-C", "/home/user/nixos-setup", "fetch", "--prune", "origin"],
           Event.proc ["git", "-C", "/etc/nixos", "status", "--porcelain=v1"]]) :=
  (sync_worktree_dirty_refuses "/etc/nixos" "/home/user/nixos-setup" "origin/main" false
    envDirty rfl rfl rfl rfl rfl (by decide)).1

/-- C7: `ensure_mirror` is a no-op returning 0 when the mirror path
exists (no subprocess, no mkdir); otherwise it creates the mirror
directory's parents and runs a full mirror clone from the upstream URL,
returning the clone's exit code. -/
theorem ensure_mirror_idempotent (m url : String) (env : Env) :
    (env.mirror_exists = true → ensure_mirror m url env = (0, [])) ∧
    (env.mirror_exists = false →
      ensure_mirror m url env =
        (env.mirror_clone_rc,
         [Event.mkdirParentOf m,
          Event.proc ["git", "clone", "--mirror", url, m]])) := by
  constructor <;> intro h <;> simp [ensure_mirror, h]

/-- Witness for `ensure_mirror_idempotent`: with the default mirror path
already present the call is a silent success. -/
theorem ensure_mirror_idempotent_witness :
    ensure_mirror defaultMirrorDir "git@github.com:Tapiiri/nixos-setup.git" env0 = (0, []) :=
  (ensure_mirror_idempotent defaultMirrorDir "git@github.com:Tapiiri/nixos-setup.git" env0).1 rfl

/-- C8 counterexample: `read_hostname` does not return the
whitespace-trimmed content.  On the file content `"my host\n"` the
trimmed content is `"my host"`, but the code deletes every whitespace
character — interior ones included — and returns `"myhost"`. -/
theorem read_hostname_not_trimming :
    read_hostname (some "my host\n") = some "myhost" ∧
    pyStrip "my host\n" = "my host" ∧
    ("myhost" : String) ≠ "my host" :=
  ⟨rfl, rfl, by decide⟩

/-- C8 (amended): `read_hostname` returns the file content with every
space, tab, CR and LF character removed, and returns `none` exactly when
the file could not be read or nothing remains after that removal. -/
theorem read_hostname_spec (file : Option String) :
    (read_hostname file = none ↔
      file = none ∨ ∃ raw, file = some raw ∧ removeWs raw = "") ∧
    (∀ raw, file = some raw → removeWs raw ≠ "" →
      read_hostname file = some (removeWs raw)) := by
  cases file with
  | none => simp [read_hostname]
  | some raw =>
    constructor
    · simp only [read_hostname]
      constructor
      · intro h
        by_cases hw : removeWs raw = ""
        · exact Or.inr ⟨raw, rfl, hw⟩
        · simp [hw] at h
      · rintro (h | ⟨raw2, heq, hw⟩)
        · exact absurd h (by simp)
        · have : raw2 = raw := by injection heq.symm
          subst this
          simp [hw]
    · intro raw2 heq hw
      have : raw2 = raw := by injection heq.symm
      subst this
      simp [read_hostname, hw]

/-- Witness for `read_hostname_spec`: a normal hostname file with a
trailing newline yields the hostname. -/
theorem read_hostname_spec_witness :
    read_hostname (some "myhost\n") = some (removeWs "myhost\n") :=
  (read_hostname_spec (some "myhost\n")).2 "myhost\n" rfl (by decide)

/-- C10: when the developer checkout is not a usable git repository (the
worktree listing fails) or the target directory is not among its
registered worktrees, `sync_worktree` returns success 0 after only the
read-only listing commands, and in the non-mirror pipeline `main`
consequently proceeds to the apply step. -/
theorem sync_worktree_skips_silently (wt rr ref : String) (upd : Bool)
    (cfg : RebuildConfig) (env : Env) :
    (env.wt_list_rc ≠ 0 →
      sync_worktree wt rr ref upd env =
        (0, [Event.proc ["git", "-C", rr, "worktree", "list"]])) ∧
    (env.wt_list_rc = 0 → env.wt_porcelain_rc = 0 →
      strContains env.wt_porcelain_stdout ("worktree " ++ wt) = false →
      sync_worktree wt rr ref upd env =
        (0, [Event.proc ["git", "-C", rr, "worktree", "list"],
             Event.proc ["git", "-C", rr, "worktree", "list", "--porcelain"]])) ∧
    (cfg.sync_etc_nixos = true → cfg.flake_dir = defaultFlakeDir →
      cfg.use_mirror = false → env.wt_list_rc = 0 → env.wt_porcelain_rc = 0 →
      strContains env.wt_porcelain_stdout ("worktree " ++ defaultFlakeDir) = false →
      mainSync cfg env =
        (none, [Event.proc ["git", "-C", cfg.repo_root, "worktree", "list"],
                Event.proc ["git", "-C", cfg.repo_root, "worktree", "list", "--porcelain"]])) := by
  refine ⟨fun h => by simp [sync_worktree, h], fun hl hp hr => ?_, fun h1 h2 h3 hl hp hr => ?_⟩
  · simp [sync_worktree, hl, hp, hr]
  · have hsw : sync_worktree defaultFlakeDir cfg.repo_root cfg.sync_ref cfg.sync_checkout env =
        (0, [Event.proc ["git", "-C", cfg.repo_root, "worktree", "list"],
             Event.proc ["git", "-C", cfg.repo_root, "worktree", "list", "--porcelain"]]) := by
      simp [sync_worktree, hl, hp, hr]
    simp [mainSync, h1, h2, h3, hsw]

/-- Witness for `sync_worktree_skips_silently`: `/etc/nixos` absent from
the porcelain worktree listing. -/
theorem sync_worktree_skips_silently_witness :
    sync_worktree "/etc/nixos" "/home/user/nixos-setup" "origin/main" false env0 =
      (0, [Event.proc ["git", "-C", "/home/user/nixos-setup", "worktree", "list"],
           Event.proc ["git", "-C", "/home/user/nixos-setup", "worktree", "list", "--porcelain"]]) :=
  (sync_worktree_skips_silently "/etc/nixos" "/home/user/nixos-setup" "origin/main" false
    cfgNoMirror env0).2.1 rfl rfl rfl

/-- C3 counterexample: with mirroring disabled but syncing enabled (the
default when rebuilding from `/etc/nixos`), the orchestrator does not skip
synchronisation: it runs the worktree sync path, including a network fetch
into the developer checkout. -/
theorem mainSync_mirror_disabled_still_syncs :
    (mainSync cfgNoMirror envWt).2 =
      [Event.proc ["git", "-C", "/home/user/nixos-setup", "worktree", "list"],
       Event.proc ["git", "-C", "/home/user/nixos-setup", "worktree", "list", "--porcelain"],
       Event.proc ["git", "-C", "/home/user/nixos-setup", "fetch", "--prune", "origin"],
       Event.proc ["git", "-C", "/etc/nixos", "status", "--porcelain=v1"]] ∧
    Event.proc ["git", "-C", "/home/user/nixos-setup", "fetch", "--prune", "origin"]
      ∈ (mainSync cfgNoMirror envWt).2 :=
  ⟨rfl, by decide⟩

/-- C3 (amended): the orchestrator performs no synchronisation step at all
exactly when syncing is disabled by policy or the flake directory is not
the default system path; when only mirroring is disabled (with syncing on
and the default flake directory) it executes the worktree synchronisation
path instead. -/
theorem mainSync_sync_policy (cfg : RebuildConfig) (env : Env) :
    (mainSync cfg env = (none, []) ↔
      ¬(cfg.sync_etc_nixos = true ∧ cfg.flake_dir = defaultFlakeDir)) ∧
    (cfg.sync_etc_nixos = true → cfg.flake_dir = defaultFlakeDir →
      cfg.use_mirror = false →
      (mainSync cfg env).2 =
        (sync_worktree defaultFlakeDir cfg.repo_root cfg.sync_ref cfg.sync_checkout env).2) := by
  constructor
  · by_cases hc : cfg.sync_etc_nixos = true ∧ cfg.flake_dir = defaultFlakeDir
    · refine ⟨fun h => ?_, fun hn => absurd hc hn⟩
      exfalso
      by_cases hm : cfg.use_mirror = true
      · simp only [mainSync, if_pos hc, if_pos hm] at h
        split at h
        · simp at h
        · split at h
          · simp at h
          · split at h
            · simp at h
            · split at h
              · simp at h
              · split at h <;> simp at h
      · simp only [mainSync, if_pos hc, if_neg hm] at h
        split at h
        · simp at h
        · exact sync_worktree_snd_ne_nil defaultFlakeDir cfg.repo_root cfg.sync_ref
            cfg.sync_checkout env (congrArg Prod.snd h)
    · simp [mainSync, hc]
  · intro h1 h2 h3
    have hm : ¬cfg.use_mirror = true := by simp [h3]
    simp only [mainSync, if_pos (And.intro h1 h2), if_neg hm]
    split <;> rfl

/-- Witness for `mainSync_sync_policy`: the mirror-disabled configuration
runs exactly the worktree sync commands. -/
theorem mainSync_sync_policy_witness :
    (mainSync cfgNoMirror envWt).2 =
      (sync_worktree defaultFlakeDir cfgNoMirror.repo_root cfgNoMirror.sync_ref
        cfgNoMirror.sync_checkout envWt).2 :=
  (mainSync_sync_policy cfgNoMirror envWt).2 rfl rfl rfl

/-- C9 counterexample: the locator's public entry point does not return
the nearest matching ancestor.  With markers present at both `/a/b/c`
(the script's parent) and `/a`, `repo_root_from_script_path` for
`/a/b/c/s.py` starts its first search at the grandparent `/a/b` and
returns `/a`, even though the nearest matching ancestor — returned by
`find_upwards` from the script path itself — is `/a/b/c`. -/
theorem repo_root_not_nearest_match :
    repo_root_from_script_path fsC9 ["a", "b", "c", "s.py"] defaultMarkers = .ok ["a"] ∧
    has_markers fsC9 ["a", "b", "c"] defaultMarkers = true ∧
    find_upwards fsC9 ["a", "b", "c", "s.py"] defaultMarkers = some ["a", "b", "c"] ∧
    (["a"] : List String) ≠ ["a", "b", "c"] := by
  refine ⟨rfl, rfl, rfl, by decide⟩

/-- C9 (amended): `find_upwards` resolves symlinks first and then checks
the chain of at most `FIND_UPWARDS_LIMIT` directories — the start
directory, then its parents, nearest first, stopping at the root —
returning the first (nearest) match and `none` when no directory in the
chain matches; `repo_root_from_script_path` runs that search from the
resolved script path's grandparent, then its parent, then the script path
itself, returning the first search's result, and reports not-found
exactly when all three searches fail. -/
theorem find_upwards_spec (fs : FS) (start sp : List String) (m : RepoMarkers) :
    find_upwards fs start m =
      (upChain FIND_UPWARDS_LIMIT (fs.resolve start)).find?
        (fun p => has_markers fs p m) ∧
    (repo_root_from_script_path fs sp m = .error () ↔
      (find_upwards fs (fs.resolve sp).dropLast.dropLast m = none ∧
       find_upwards fs (fs.resolve sp).dropLast m = none ∧
       find_upwards fs (fs.resolve sp) m = none)) := by
  constructor
  · exact findUpGo_eq_find fs m FIND_UPWARDS_LIMIT (fs.resolve start)
  · simp only [repo_root_from_script_path]
    cases h1 : find_upwards fs (fs.resolve sp).dropLast.dropLast m <;>
      cases h2 : find_upwards fs (fs.resolve sp).dropLast m <;>
        cases h3 : find_upwards fs (fs.resolve sp) m <;>
          simp [h1, h2, h3]

/-- Witness instantiating `find_upwards_spec` at the counterexample
filesystem. -/
theorem find_upwards_spec_witness :
    find_upwards fsC9 ["a", "b", "c", "s.py"] defaultMarkers =
      (upChain FIND_UPWARDS_LIMIT (fsC9.resolve ["a", "b", "c", "s.py"])).find?
        (fun p => has_markers fsC9 p defaultMarkers) :=
  (find_upwards_spec fsC9 ["a", "b", "c", "s.py"] ["a", "b", "c", "s.py"] defaultMarkers).1

theorem pkaStep_extras_sup (ns : ArgNamespace) (extras : List String) (seen : Bool)
    (tok : String) (nx : Option String) (ns2 : ArgNamespace) (extras2 : List String)
    (seen2 skip : Bool)
    (h : pkaStep ns extras seen tok nx = .ok (ns2, extras2, seen2, skip)) :
    ∀ x ∈ extras, x ∈ extras2 := by
  intro x hx
  simp only [pkaStep] at h
  repeat' split at h
  all_goals
    first
      | exact Except.noConfusion h
      | (simp only [Except.ok.injEq, Prod.mk.injEq] at h
         rcases h with ⟨-, h2, -, -⟩
         subst h2
         first
           | exact hx
           | exact List.mem_append_left _ hx)

theorem pkaStep_seen_false (ns : ArgNamespace) (extras : List String) (tok : String)
    (nx : Option String) (ns2 : ArgNamespace) (extras2 : List String) (seen2 skip : Bool)
    (hne : tok ≠ "--")
    (h : pkaStep ns extras false tok nx = .ok (ns2, extras2, seen2, skip)) :
    seen2 = false := by
  simp only [pkaStep] at h
  rw [if_neg Bool.false_ne_true] at h
  rw [if_neg (fun hb => hne (eq_of_beq hb))] at h
  repeat' split at h
  all_goals
    first
      | exact Except.noConfusion h
      | (simp only [Except.ok.injEq, Prod.mk.injEq] at h
         exact h.2.2.1.symm)

theorem pkaStep_skip_val (ns : ArgNamespace) (extras : List String) (seen : Bool)
    (tok : String) (nx : Option String) (ns2 : ArgNamespace) (extras2 : List String)
    (seen2 : Bool)
    (h : pkaStep ns extras seen tok nx = .ok (ns2, extras2, seen2, true)) :
    ∃ v, nx = some v ∧ isPositionalTok v = true := by
  simp only [pkaStep] at h
  repeat' split at h
  all_goals
    first
      | exact Except.noConfusion h
      | (simp only [Except.ok.injEq, Prod.mk.injEq] at h
         exact absurd h.2.2.2 (by decide))
      | exact ⟨_, rfl, by assumption⟩

theorem pkaStep_unknown_mem (tok : String) (ns : ArgNamespace) (extras : List String)
    (nx : Option String) (ns2 : ArgNamespace) (extras2 : List String) (seen2 skip : Bool)
    (hflag : isUnrecognizedFlag tok = true)
    (h : pkaStep ns extras false tok nx = .ok (ns2, extras2, seen2, skip)) :
    tok ∈ extras2 := by
  simp only [isUnrecognizedFlag, Bool.and_eq_true, Bool.not_eq_true',
    decide_eq_true_eq] at hflag
  obtain ⟨⟨⟨hdash, hposf⟩, hne2⟩, hcond⟩ := hflag
  simp only [pkaStep] at h
  rw [if_neg Bool.false_ne_true] at h
  rw [if_neg (fun hb => hne2 (eq_of_beq hb))] at h
  rw [if_neg (fun hb => by rw [hposf] at hb; exact Bool.noConfusion hb)] at h
  by_cases hlong : strStartsWith tok "--" = true
  · rw [if_pos hlong] at h
    rw [if_pos hlong] at hcond
    split at h
    · simp only [Except.ok.injEq, Prod.mk.injEq] at h
      rw [← h.2.1]
      simp
    · exact Except.noConfusion h
    · rename_i o takesVal hres
      exfalso
      have h2 := of_decide_eq_true hcond
      rw [hres] at h2
      exact LongRes.noConfusion h2
  · rw [if_neg hlong] at h
    rw [if_neg hlong] at hcond
    have hpre : strStartsWith tok "-h" = false := by
      simp only [Bool.not_eq_true'] at hcond
      exact hcond
    rw [if_neg (fun hb => by
      have he : tok = "-h" := eq_of_beq hb
      rw [he] at hpre
      have htrue : strStartsWith "-h" "-h" = true := by decide
      rw [htrue] at hpre
      exact Bool.noConfusion hpre)] at h
    rw [if_neg (fun hb => by rw [hpre] at hb; exact Bool.noConfusion hb)] at h
    simp only [Except.ok.injEq, Prod.mk.injEq] at h
    rw [← h.2.1]
    simp

theorem pka_unknown_aux (tok : String) (n : Nat) :
    ∀ (toks : List String), toks.length ≤ n →
      ∀ (ns : ArgNamespace) (extras : List String),
        "--" ∉ toks → isUnrecognizedFlag tok = true →
        (tok ∈ toks ∨ tok ∈ extras) →
        ∀ (ns2 : ArgNamespace) (rest : List String),
          pkaGo ns extras false toks = .ok (ns2, rest) → tok ∈ rest := by
  induction n with
  | zero =>
    intro toks hlen ns extras hsep hflag hmem ns2 rest h
    have htoks : toks = [] := List.length_eq_zero.mp (Nat.le_zero.mp hlen)
    subst htoks
    simp only [pkaGo, Except.ok.injEq, Prod.mk.injEq] at h
    rcases hmem with hm | hm
    · exact absurd hm (List.not_mem_nil tok)
    · exact h.2 ▸ hm
  | succ k ih =>
    intro toks hlen ns extras hsep hflag hmem ns2 rest h
    cases toks with
    | nil =>
      simp only [pkaGo, Except.ok.injEq, Prod.mk.injEq] at h
      rcases hmem with hm | hm
      · exact absurd hm (List.not_mem_nil tok)
      · exact h.2 ▸ hm
    | cons tok2 toks =>
      have hposf : isPositionalTok tok = false := by
        have hflag0 := hflag
        simp only [isUnrecognizedFlag, Bool.and_eq_true, Bool.not_eq_true',
          decide_eq_true_eq] at hflag0
        exact hflag0.1.1.2
      have hsep_head : tok2 ≠ "--" := fun he => hsep (by
        rw [← he]; exact List.mem_cons_self tok2 toks)
      have hsep_tail : "--" ∉ toks := fun hx => hsep (List.mem_cons_of_mem tok2 hx)
      have hlen2 : toks.length ≤ k := Nat.le_of_succ_le_succ (by simpa using hlen)
      simp only [pkaGo] at h
      split at h
      · exact Except.noConfusion h
      · rename_i ns3 extras3 seen3 skipN hstep
        have hseen3 : seen3 = false :=
          pkaStep_seen_false ns extras tok2 _ ns3 extras3 seen3 skipN hsep_head hstep
        subst hseen3
        have hsup : ∀ x ∈ extras, x ∈ extras3 :=
          pkaStep_extras_sup ns extras false tok2 _ ns3 extras3 false skipN hstep
        have hself : tok = tok2 → tok ∈ extras3 := fun he =>
          pkaStep_unknown_mem tok ns extras _ ns3 extras3 false skipN hflag
            (he.symm ▸ hstep)
        by_cases hskip : skipN = true
        · subst hskip
          rw [if_pos rfl] at h
          obtain ⟨v0, hv0, hvpos⟩ :=
            pkaStep_skip_val ns extras false tok2 _ ns3 extras3 false hstep
          split at h
          · rename_i v toks2
            rw [List.head?_cons] at hv0
            injection hv0 with hv0
            rw [← hv0] at hvpos
            have hsep2 : "--" ∉ toks2 := fun hx =>
              hsep_tail (List.mem_cons_of_mem v hx)
            have hlen3 : toks2.length ≤ k := Nat.le_of_succ_le (by simpa using hlen2)
            have hmem3 : tok ∈ toks2 ∨ tok ∈ extras3 := by
              rcases hmem with hm | hm
              · rcases List.mem_cons.mp hm with he | hm2
                · exact Or.inr (hself he)
                · rcases List.mem_cons.mp hm2 with hev | hm3
                  · exfalso
                    rw [← hev] at hvpos
                    rw [hposf] at hvpos
                    exact Bool.noConfusion hvpos
                  · exact Or.inl hm3
              · exact Or.inr (hsup tok hm)
            exact ih toks2 hlen3 ns3 extras3 hsep2 hflag hmem3 ns2 rest h
          · simp at hv0
        · rw [if_neg hskip] at h
          have hmem2 : tok ∈ toks ∨ tok ∈ extras3 := by
            rcases hmem with hm | hm
            · rcases List.mem_cons.mp hm with he | hm2
              · exact Or.inr (hself he)
              · exact Or.inl hm2
            · exact Or.inr (hsup tok hm)
          exact ih toks hlen2 ns3 extras3 hsep_tail hflag hmem2 ns2 rest h

/-- C4 counterexample: the unrecognised flag `--bogus` placed before the
literal separator is not rejected — `parse_args ["--bogus", "--", "x"]`
succeeds, silently dropping `--bogus` and passing through `["x"]`. -/
theorem parse_args_unknown_before_sep_accepted :
    parse_args ["--bogus", "--", "x"] =
      .ok ({ hostname := some "x" }, ["x"]) ∧
    isUnrecognizedFlag "--bogus" = true :=
  ⟨rfl, rfl⟩

/-- C4 (amended): when no literal `--` appears in the argument vector,
any unrecognised flag token makes `parse_args` abort with a hard parse
error; when a `--` is present, a successful parse returns as passthrough
exactly the tokens after the first `--`, verbatim and in order — but
unrecognised flags before the separator are then not rejected. -/
theorem parse_args_separator_spec (argv : List String) (tok : String) :
    ("--" ∉ argv → tok ∈ argv → isUnrecognizedFlag tok = true →
      ∃ e, parse_args argv = .error e) ∧
    ("--" ∈ argv → ∀ ns rest, parse_args argv = .ok (ns, rest) →
      rest = dropThroughSep argv) := by
  constructor
  · intro hsep hmem hflag
    cases hpka : parse_known_args argv with
    | error e => exact ⟨e, by simp [parse_args, hpka]⟩
    | ok p =>
      obtain ⟨ns, rest⟩ := p
      have hrest : tok ∈ rest :=
        pka_unknown_aux tok argv.length argv le_rfl {} [] hsep hflag
          (Or.inl hmem) ns rest hpka
      have hdash : strStartsWith tok "-" = true := by
        have := hflag
        simp only [isUnrecognizedFlag, Bool.and_eq_true] at this
        exact this.1.1.1
      simp only [parse_args, hpka]
      rw [if_neg hsep]
      cases hf : rest.find? (fun t => strStartsWith t "-") with
      | none =>
        exfalso
        exact (List.find?_eq_none.mp hf tok hrest) hdash
      | some t => exact ⟨.unknownOption t, rfl⟩
  · intro hsep ns rest h
    cases hpka : parse_known_args argv with
    | error e => simp [parse_args, hpka] at h
    | ok p =>
      obtain ⟨ns0, rest0⟩ := p
      simp only [parse_args, hpka] at h
      rw [if_pos hsep] at h
      simp only [Except.ok.injEq, Prod.mk.injEq] at h
      exact h.2.symm

/-- Witness for `parse_args_separator_spec`: without a separator the
unknown flag `--bogus` is a hard error; with a separator the passthrough
is the suffix after it. -/
theorem parse_args_separator_spec_witness :
    (∃ e, parse_args ["--bogus"] = .error e) ∧
    (∀ ns rest, parse_args ["--dev", "myhost", "--", "--show-trace", "-L"] = .ok (ns, rest) →
      rest = dropThroughSep ["--dev", "myhost", "--", "--show-trace", "-L"]) :=
  ⟨(parse_args_separator_spec ["--bogus"] "--bogus").1 (by decide) (by decide) rfl,
   (parse_args_separator_spec ["--dev", "myhost", "--", "--show-trace", "-L"] "x").2
     (by decide)⟩

end NixosSetup
